import Mathlib

/-
  Shallow embedding of the methyltransferase classification scripts:
    - ec_to_type.py            (name classifier `classify`, line parser patterns)
    - MT_split_by_ec.py        (EC_REGEX findall, `extract_ec_list`, column fallback)
    - assign_groups_to_ec_summary.py (`parse_mt_grouped`, `choose_group_for_ecs`, main checks)
    - split_mt2_by_group.py    (`parse_grouped_sectioned`, `decide_row_group`, main checks)

  Strings are modelled as lists of characters (`String.data`); Python's
  `re.IGNORECASE` is modelled by lowercasing text and patterns with
  `Char.toLower` (adequate for the ASCII patterns used here); the word
  class of `\b` and `\w` is modelled as ASCII alphanumerics plus
  underscore, matching the character classes `[A-Za-z0-9_]` that the
  scripts themselves use.
-/

namespace MT

/-- Word characters for Python's word-boundary `\b`, ASCII model:
letters, digits and underscore. -/
def isWordChar (c : Char) : Bool := c.isAlphanum || c = '_'

/-- Does the position predicate `p` hold at some position of the list?
`p` receives the character just before the position (if any) and the
remainder of the list from the position on.  This models a regex engine
scanning every start position left to right. -/
def scanPos (p : Option Char → List Char → Bool) : Option Char → List Char → Bool
  | prev, [] => p prev []
  | prev, c :: cs => p prev (c :: cs) || scanPos p (some c) cs

/-- A word boundary right before a pattern that starts with a word
character: holds at the start of the string or after a non-word char. -/
def boundaryB (prev : Option Char) : Bool :=
  match prev with
  | none => true
  | some c => !isWordChar c

/-- Strip the literal pattern `pat` from the front of `s`; `none` when
`s` does not start with `pat`. -/
def dropPre : List Char → List Char → Option (List Char)
  | [], s => some s
  | _ :: _, [] => none
  | p :: ps, c :: cs => if p = c then dropPre ps cs else none

/-- A word boundary right after a pattern that ends with a word
character: holds at the end of the string or before a non-word char. -/
def boundaryAfterWord : List Char → Bool
  | [] => true
  | c :: _ => !isWordChar c

/-- Search for the fixed token `pat` (which starts and ends with word
characters) delimited by `\b` on both sides, like
`re.search(r"\b<pat>\b", s)`. -/
def searchWB (pat : List Char) (s : List Char) : Bool :=
  scanPos (fun prev rest =>
    boundaryB prev &&
    (match dropPre pat rest with
     | some r => boundaryAfterWord r
     | none => false)) none s

/-- Plain substring search, like `re.search` on a literal pattern with
no anchors. -/
def searchSub (pat : List Char) (s : List Char) : Bool :=
  scanPos (fun _ rest => (dropPre pat rest).isSome) none s

/-- Lowercased character list of a string; models `name.lower()` and
`re.IGNORECASE` over the ASCII patterns used by the scripts. -/
def lowerData (s : String) : List Char := s.data.map Char.toLower

/-- ASCII apostrophe, written via its code point. -/
def apos : Char := Char.ofNat 39

/-- RE_2P_O = `2['\x27]-o` alternatives: the ASCII-apostrophe form and the
Unicode-prime form (`2′-o`). -/
def re_2p_o (l : List Char) : Bool :=
  searchSub ['2', apos, '-', 'o'] l || searchSub "2′-o".data l

/-- RE_O_MT = `\bo-methyltransferase\b`. -/
def re_o_mt (l : List Char) : Bool := searchWB "o-methyltransferase".data l

/-- RE_N_MT = `\bn-methyltransferase\b`. -/
def re_n_mt (l : List Char) : Bool := searchWB "n-methyltransferase".data l

/-- After at least one digit, the closing parenthesis: used for the
`\(\d+\)` tails of the locant patterns.  Assumes the head is a digit. -/
def restRparen : List Char → Bool
  | [] => false
  | c :: cs => if c.isDigit then restRparen cs else c = ')'

/-- Match of RE_N_PAREN = `\bn\(\d+\)|n\(alpha\)` at one position.  Note
the alternation scope from the source: only the first alternative
carries the leading word boundary. -/
def np_at (prev : Option Char) (l : List Char) : Bool :=
  match l with
  | 'n' :: '(' :: rest =>
      (boundaryB prev &&
        (match rest with
         | c :: _ => c.isDigit && restRparen rest
         | [] => false))
      || (dropPre "alpha)".data rest).isSome
  | _ => false

/-- RE_N_PAREN searched over the whole string. -/
def re_n_paren (l : List Char) : Bool := scanPos np_at none l

/-- RE_C_MT = `\bc-methyltransferase\b`. -/
def re_c_mt (l : List Char) : Bool := searchWB "c-methyltransferase".data l

/-- Match of RE_C_PAREN = `\bc\(\d+\)` at one position. -/
def cp_at (prev : Option Char) (l : List Char) : Bool :=
  match l with
  | 'c' :: '(' :: rest =>
      boundaryB prev &&
        (match rest with
         | c :: _ => c.isDigit && restRparen rest
         | [] => false)
  | _ => false

/-- RE_C_PAREN searched over the whole string. -/
def re_c_paren (l : List Char) : Bool := scanPos cp_at none l

/-- RE_CYTOSINE_5 = `cytosine-5` (no anchors). -/
def re_cytosine5 (l : List Char) : Bool := searchSub "cytosine-5".data l

/-- RE_S_MT = `\bs-methyltransferase\b`. -/
def re_s_mt (l : List Char) : Bool := searchWB "s-methyltransferase".data l

/-- RE_S_HINT = `\bthiol\b|\bthioether\b|\bcysteine\b|\bmercaptan\b`. -/
def re_s_hint (l : List Char) : Bool :=
  searchWB "thiol".data l || searchWB "thioether".data l ||
  searchWB "cysteine".data l || searchWB "mercaptan".data l

/-- RE_CO_MT = `\bco-methyltransferase\b`. -/
def re_co_mt (l : List Char) : Bool := searchWB "co-methyltransferase".data l

/-- RE_MT_WORD = `\bmethyltransferase\b`. -/
def re_mt_word (l : List Char) : Bool := searchWB "methyltransferase".data l

/-- `classify(name, status)` from ec_to_type.py: ordered first-match-wins
rules over the lowercased name. -/
def classify (name status : String) : String :=
  if status = "TRANSFERRED" then "TRANSFERRED"
  else if status = "DELETED" then "DELETED"
  else
    let l := lowerData name
    if re_co_mt l then "OTHER"
    else if re_2p_o l || re_o_mt l then "O_MT"
    else if re_n_mt l || re_n_paren l then "N_MT"
    else if re_c_mt l || re_c_paren l || re_cytosine5 l then "C_MT"
    else if re_s_mt l || (re_mt_word l && re_s_hint l && !(searchSub "s-adenosyl".data l)) then "S_MT"
    else if re_mt_word l then "UNCLEAR"
    else "OTHER"

/-- Span of leading digits: `(takeWhile isDigit, dropWhile isDigit)`,
the greedy `\d+` (or `\d*`) step of the EC regex. -/
def spanDigits (l : List Char) : List Char × List Char :=
  (l.takeWhile Char.isDigit, l.dropWhile Char.isDigit)

/-- Attempt to match EC_REGEX = `\b\d+\.\d+\.\d+\.(?:\d+|-)\b` at the
head of `l` (the leading boundary is checked by the caller).  Returns
the matched characters and the remainder.  Backtracking cannot rescue a
failed trailing boundary here: shortening a greedy digit run always
leaves a digit (a word char) as the next character, so the greedy
outcome is the only one, exactly as in the Python engine. -/
def matchEC (l : List Char) : Option (List Char × List Char) :=
  match spanDigits l with
  | ([], _) => none
  | (d1, r1) =>
    match r1 with
    | '.' :: r2 =>
      match spanDigits r2 with
      | ([], _) => none
      | (d2, r3) =>
        match r3 with
        | '.' :: r4 =>
          match spanDigits r4 with
          | ([], _) => none
          | (d3, r5) =>
            match r5 with
            | '.' :: r6 =>
              match r6 with
              | c :: r7 =>
                if c.isDigit then
                  match spanDigits r6 with
                  | (d4, r8) =>
                    if boundaryAfterWord r8 then
                      some (d1 ++ '.' :: (d2 ++ '.' :: (d3 ++ '.' :: d4)), r8)
                    else none
                else if c = '-' then
                  -- trailing boundary after the non-word char `-`:
                  -- requires the NEXT character to be a word character
                  match r7 with
                  | x :: _ =>
                    if isWordChar x then
                      some (d1 ++ '.' :: (d2 ++ '.' :: (d3 ++ ['.', '-'])), r7)
                    else none
                  | [] => none
                else none
              | [] => none
            | _ => none
        | _ => none
    | _ => none

/-- Fueled scan for `EC_REGEX.findall`: try a match at every position
(with the leading `\b` check), collect non-overlapping matches left to
right, continuing after each match. -/
def findallAux : Nat → Option Char → List Char → List String
  | 0, _, _ => []
  | _ + 1, _, [] => []
  | fuel + 1, prev, c :: cs =>
    if boundaryB prev then
      match matchEC (c :: cs) with
      | some (m, rest) => String.mk m :: findallAux fuel (some (m.getLastD c)) rest
      | none => findallAux fuel (some c) cs
    else findallAux fuel (some c) cs

/-- `EC_REGEX.findall(s)` from the three scripts. -/
def findall (s : String) : List String :=
  findallAux (s.data.length + 1) none s.data

/-- Code-point lexicographic order on character lists, the order
Python's `sorted` uses on `str` values. -/
def ltChars : List Char → List Char → Bool
  | [], [] => false
  | [], _ :: _ => true
  | _ :: _, [] => false
  | a :: as, b :: bs =>
    if a.toNat < b.toNat then true
    else if b.toNat < a.toNat then false
    else ltChars as bs

/-- Code-point lexicographic order on strings. -/
def ltStr (a b : String) : Bool := ltChars a.data b.data

/-- Insert into a sorted list of strings (code-point lexicographic
order, as Python's `sorted` on `str`). -/
def insertStr (x : String) : List String → List String
  | [] => [x]
  | y :: ys => if ltStr x y then x :: y :: ys else y :: insertStr x ys

/-- Insertion sort on strings, modelling Python's `sorted`. -/
def sortStr : List String → List String
  | [] => []
  | x :: xs => insertStr x (sortStr xs)

/-- `extract_ec_list(s)` from MT_split_by_ec.py:
`sorted(set(EC_REGEX.findall(s)))`. -/
def extract_ec_list (s : String) : List String :=
  sortStr (findall s).dedup

/-- `choose_group_for_ecs(ecs, ec_to_group)` from
assign_groups_to_ec_summary.py.  The dictionary is modelled as a
partial map (`.get`); `groups`/`unknown` accumulate the loop results;
`set(groups)` is modelled by `List.dedup` (its length is the number of
distinct values, its head for a one-element set is the unique value
that `next(iter(...))` returns). -/
def choose_group_for_ecs (ecs : List String) (ec_to_group : String → Option String) : String :=
  if ecs.isEmpty then "NO_EC"
  else
    let groups := ecs.filterMap ec_to_group
    let unknown := ecs.countP (fun ec => (ec_to_group ec).isNone)
    let groups_set := groups.dedup
    if groups.isEmpty && unknown != 0 then "UNKNOWN"
    else if !groups.isEmpty && unknown != 0 then "MIXED"
    else if groups_set.length = 1 then groups_set.headD ""
    else "MULTIPLE"

/-- `decide_row_group(ec_list, ec_to_group)` from split_mt2_by_group.py
(same loop; the distinct-group set is formed after the MIXED check). -/
def decide_row_group (ec_list : List String) (ec_to_group : String → Option String) : String :=
  if ec_list.isEmpty then "NO_EC"
  else
    let groups := ec_list.filterMap ec_to_group
    let unknown := ec_list.countP (fun ec => (ec_to_group ec).isNone)
    if groups.isEmpty && unknown != 0 then "UNKNOWN"
    else if !groups.isEmpty && unknown != 0 then "MIXED"
    else
      let gs := groups.dedup
      if gs.length = 1 then gs.headD ""
      else "MULTIPLE"

/-- Python dict lookup (`d.get(k)`) on an association list. -/
def lookupStr : List (String × String) → String → Option String
  | [], _ => none
  | (k, v) :: t, key => if key = k then some v else lookupStr t key

/-- Python `dict.setdefault(k, v)`: keep an existing binding, append a
new one otherwise. -/
def insertIfAbsent (d : List (String × String)) (k v : String) : List (String × String) :=
  match lookupStr d k with
  | some _ => d
  | none => d ++ [(k, v)]

/-- Python `str.strip()` on a character list. -/
def trimChars (l : List Char) : List Char :=
  ((l.dropWhile Char.isWhitespace).reverse.dropWhile Char.isWhitespace).reverse

/-- Fullmatch of EC_REGEX = `\b\d+\.\d+\.\d+\.(?:\d+|-)\b` against the
whole string.  A final `-` can never satisfy the trailing `\b` when
nothing follows it, so a fullmatch forces a numeric fourth component
consuming the rest of the string. -/
def ecFullmatch (l : List Char) : Bool :=
  match spanDigits l with
  | ([], _) => false
  | (_, r1) =>
    match r1 with
    | '.' :: r2 =>
      match spanDigits r2 with
      | ([], _) => false
      | (_, r3) =>
        match r3 with
        | '.' :: r4 =>
          match spanDigits r4 with
          | ([], _) => false
          | (_, r5) =>
            match r5 with
            | '.' :: r6 =>
              match spanDigits r6 with
              | ([], _) => false
              | (_, r8) => r8.isEmpty
            | _ => false
        | _ => false
    | _ => false

/-- Group name from a header line for assign_groups_to_ec_summary.py:
`re.match(r"#\s*([A-Za-z0-9_]+)\b", line)`.  After the greedy run over
`[A-Za-z0-9_]` the following character (if any) is outside that class,
so the trailing `\b` always holds in the ASCII model. -/
def headerGroupA (l : List Char) : Option String :=
  match l with
  | '#' :: rest =>
    let t := rest.dropWhile Char.isWhitespace
    let run := t.takeWhile (fun c => c.isAlphanum || c = '_')
    if run.isEmpty then none else some (String.mk run)
  | _ => none

/-- Group name from a header line for split_mt2_by_group.py:
`re.match(r"#\s*([A-Za-z0-9_-]+)", line)` (the class also contains
`-`, and there is no trailing `\b`). -/
def headerGroupB (l : List Char) : Option String :=
  match l with
  | '#' :: rest =>
    let t := rest.dropWhile Char.isWhitespace
    let run := t.takeWhile (fun c => c.isAlphanum || c = '_' || c = '-')
    if run.isEmpty then none else some (String.mk run)
  | _ => none

/-- Does the lowercased line start with the literal column header
prefix `ec` + TAB?  Models `line.lower().startswith("ec\t")`. -/
def startsEcTab (l : List Char) : Bool :=
  (dropPre "ec\t".data (l.map Char.toLower)).isSome

/-- First tab-separated field of a line
(`line.split("\t")[0].strip()`). -/
def firstTabField (l : List Char) : List Char :=
  trimChars (l.takeWhile (fun c => c ≠ '\t'))

/-- One line of `parse_mt_grouped` from assign_groups_to_ec_summary.py;
the state is the current section group and the accumulated dictionary. -/
def stepA (st : Option String × List (String × String)) (raw : String) :
    Option String × List (String × String) :=
  let line := trimChars raw.data
  if line.isEmpty then st
  else if line.headD ' ' = '#' then (headerGroupA line, st.2)
  else if startsEcTab line then st
  else
    match st.1 with
    | none => st
    | some g =>
      let ec := firstTabField line
      if ecFullmatch ec then (some g, insertIfAbsent st.2 (String.mk ec) g) else st

/-- `parse_mt_grouped(path)` from assign_groups_to_ec_summary.py over
the list of input lines. -/
def parse_mt_grouped (lines : List String) : List (String × String) :=
  (lines.foldl stepA (none, [])).2

/-- One line of `parse_grouped_sectioned` from split_mt2_by_group.py;
identical processing except for the header pattern (current group
falsy test coincides: the header parser never produces an empty name). -/
def stepB (st : Option String × List (String × String)) (raw : String) :
    Option String × List (String × String) :=
  let line := trimChars raw.data
  if line.isEmpty then st
  else if line.headD ' ' = '#' then (headerGroupB line, st.2)
  else if startsEcTab line then st
  else
    match st.1 with
    | none => st
    | some g =>
      let ec := firstTabField line
      if ecFullmatch ec then (some g, insertIfAbsent st.2 (String.mk ec) g) else st

/-- `parse_grouped_sectioned(path)` from split_mt2_by_group.py over the
list of input lines. -/
def parse_grouped_sectioned (lines : List String) : List (String × String) :=
  (lines.foldl stepB (none, [])).2

/-- Column selection of MT_split_by_ec.py `main` (lines 85-92): use the
EC column if present, else fall back to the catalytic-activity column,
else an empty series (one empty string per row) — with no error path. -/
def mtsplit_ec_source (cols : List String) (colv : String → List String) (n : Nat)
    (ecCol catCol : String) : List String :=
  if cols.contains ecCol then colv ecCol
  else if cols.contains catCol then colv catCol
  else List.replicate n ""

/-- Column check of split_mt2_by_group.py `main` (lines 179-182): a
missing EC column raises a RuntimeError naming the available columns. -/
def mt2_require_ec_col (cols : List String) (ecCol : String) : Except String Unit :=
  if cols.contains ecCol then Except.ok ()
  else Except.error ("Column " ++ ecCol ++ " not found. Available columns: " ++
    String.intercalate ", " cols)

/-- Pipeline of assign_groups_to_ec_summary.py `main` from the parse of
the grouped reference to the per-row resolution: an empty dictionary
raises a RuntimeError before any row is resolved. -/
def assign_run (groupedLines : List String) (ecCells : List String) :
    Except String (List String) :=
  let d := parse_mt_grouped groupedLines
  if d.isEmpty then
    Except.error "Parsed 0 EC->group mappings from MT_grouped.tsv."
  else
    Except.ok (ecCells.map (fun s => choose_group_for_ecs (findall s) (lookupStr d)))

/-- Pipeline of split_mt2_by_group.py `main` from the loaded dictionary
to the per-row resolution: an empty dictionary raises a RuntimeError
before any row is resolved. -/
def split_run (d : List (String × String)) (ecCells : List String) :
    Except String (List String) :=
  if d.isEmpty then
    Except.error "Loaded 0 EC->group mappings from MT_grouped.tsv."
  else
    Except.ok (ecCells.map (fun s => decide_row_group (findall s) (lookupStr d)))

/-! Helper lemmas about the resolver. -/

lemma isEmpty_false_of_ne_nil {α : Type} {l : List α} (h : l ≠ []) : l.isEmpty = false := by
  cases l with
  | nil => exact absurd rfl h
  | cons a t => rfl

lemma dedup_eq_singleton_iff (l : List String) (g : String) :
    l.dedup = [g] ↔ g ∈ l ∧ ∀ x ∈ l, x = g := by
  constructor
  · intro h
    have hg : g ∈ l := List.mem_dedup.mp (by simp [h])
    refine ⟨hg, fun x hx => ?_⟩
    have hxd : x ∈ l.dedup := List.mem_dedup.mpr hx
    rw [h] at hxd
    simpa using hxd
  · rintro ⟨hg, hall⟩
    have hnd : l.dedup.Nodup := l.nodup_dedup
    have hgm : g ∈ l.dedup := List.mem_dedup.mpr hg
    have hallm : ∀ x ∈ l.dedup, x = g := fun x hx => hall x (List.mem_dedup.mp hx)
    cases hdl : l.dedup with
    | nil =>
      rw [hdl] at hgm
      cases hgm
    | cons a t =>
      rw [hdl] at hgm hallm hnd
      have ha : a = g := hallm a (List.mem_cons_self a t)
      cases t with
      | nil => rw [ha]
      | cons b t2 =>
        have hb : b = g := hallm b (by simp)
        exact absurd (by simp [ha, hb] : a ∈ b :: t2) (List.nodup_cons.mp hnd).1

lemma decide_row_group_nil (d : String → Option String) :
    decide_row_group [] d = "NO_EC" := rfl

lemma decide_row_group_unknown (l : List String) (d : String → Option String)
    (hne : l ≠ []) (hall : ∀ x ∈ l, d x = none) :
    decide_row_group l d = "UNKNOWN" := by
  have hfm : l.filterMap d = [] := List.filterMap_eq_nil_iff.mpr hall
  have hcount : l.countP (fun ec => (d ec).isNone) ≠ 0 := by
    rcases List.exists_mem_of_ne_nil l hne with ⟨a, ha⟩
    have : 0 < l.countP (fun ec => (d ec).isNone) :=
      List.countP_pos_iff.mpr ⟨a, ha, by simp [hall a ha]⟩
    omega
  simp [decide_row_group, isEmpty_false_of_ne_nil hne, hfm, hcount]

lemma decide_row_group_mixed (l : List String) (d : String → Option String)
    (hm : ∃ x ∈ l, (d x).isSome = true) (hu : ∃ x ∈ l, d x = none) :
    decide_row_group l d = "MIXED" := by
  rcases hm with ⟨a, ha, hsome⟩
  have hlne : l ≠ [] := List.ne_nil_of_mem ha
  cases hda : d a with
  | none => rw [hda] at hsome; cases hsome
  | some g =>
    have hgm : g ∈ l.filterMap d := List.mem_filterMap.mpr ⟨a, ha, hda⟩
    have hgne : (l.filterMap d).isEmpty = false :=
      isEmpty_false_of_ne_nil (List.ne_nil_of_mem hgm)
    have hcount : l.countP (fun ec => (d ec).isNone) ≠ 0 := by
      rcases hu with ⟨x, hx, hdx⟩
      have : 0 < l.countP (fun ec => (d ec).isNone) :=
        List.countP_pos_iff.mpr ⟨x, hx, by simp [hdx]⟩
      omega
    simp [decide_row_group, isEmpty_false_of_ne_nil hlne, hgne, hcount]

lemma decide_row_group_same (l : List String) (d : String → Option String) (g : String)
    (hne : l ≠ []) (hall : ∀ x ∈ l, d x = some g) :
    decide_row_group l d = g := by
  rcases List.exists_mem_of_ne_nil l hne with ⟨a, ha⟩
  have hgm : g ∈ l.filterMap d := List.mem_filterMap.mpr ⟨a, ha, hall a ha⟩
  have hallg : ∀ y ∈ l.filterMap d, y = g := by
    intro y hy
    rcases List.mem_filterMap.mp hy with ⟨x, hx, hdx⟩
    rw [hall x hx] at hdx
    exact (Option.some_inj.mp hdx).symm
  have hdl : (l.filterMap d).dedup = [g] := (dedup_eq_singleton_iff _ _).mpr ⟨hgm, hallg⟩
  have hcount : l.countP (fun ec => (d ec).isNone) = 0 :=
    List.countP_eq_zero.mpr (fun x hx => by simp [hall x hx])
  have hgne : (l.filterMap d).isEmpty = false :=
    isEmpty_false_of_ne_nil (List.ne_nil_of_mem hgm)
  simp [decide_row_group, isEmpty_false_of_ne_nil hne, hgne, hcount, hdl]

lemma decide_row_group_multiple (l : List String) (d : String → Option String)
    (hall : ∀ x ∈ l, (d x).isSome = true)
    (htwo : ∃ x1 ∈ l, ∃ x2 ∈ l, ∃ g1 g2, d x1 = some g1 ∧ d x2 = some g2 ∧ g1 ≠ g2) :
    decide_row_group l d = "MULTIPLE" := by
  rcases htwo with ⟨x1, hx1, x2, hx2, g1, g2, hd1, hd2, hne12⟩
  have hlne : l ≠ [] := List.ne_nil_of_mem hx1
  have hg1 : g1 ∈ l.filterMap d := List.mem_filterMap.mpr ⟨x1, hx1, hd1⟩
  have hg2 : g2 ∈ l.filterMap d := List.mem_filterMap.mpr ⟨x2, hx2, hd2⟩
  have hgne : (l.filterMap d).isEmpty = false :=
    isEmpty_false_of_ne_nil (List.ne_nil_of_mem hg1)
  have hcount : l.countP (fun ec => (d ec).isNone) = 0 := by
    refine List.countP_eq_zero.mpr (fun x hx => ?_)
    have := hall x hx
    cases hdx : d x with
    | none => rw [hdx] at this; cases this
    | some gx => simp [hdx]
  have hlen : (l.filterMap d).dedup.length ≠ 1 := by
    intro hlen1
    rcases List.length_eq_one.mp hlen1 with ⟨a, hda⟩
    have h1 : g1 = a := by
      have : g1 ∈ (l.filterMap d).dedup := List.mem_dedup.mpr hg1
      rw [hda] at this; simpa using this
    have h2 : g2 = a := by
      have : g2 ∈ (l.filterMap d).dedup := List.mem_dedup.mpr hg2
      rw [hda] at this; simpa using this
    exact hne12 (h1.trans h2.symm)
  simp [decide_row_group, isEmpty_false_of_ne_nil hlne, hgne, hcount, hlen]

lemma choose_eq_decide (ecs : List String) (d : String → Option String) :
    choose_group_for_ecs ecs d = decide_row_group ecs d := rfl

/-! Claim theorems. -/

/-- C1: the Group Resolver realises exactly the five-way partition: an
empty EC list yields NO_EC; a non-empty list none of whose ECs is a key
yields UNKNOWN; a list with both mapped and unmapped ECs yields MIXED;
a list whose ECs are all mapped to one single group yields that group;
a list whose ECs are all mapped but to two or more distinct groups
yields MULTIPLE. -/
theorem c1_resolver_five_way_partition (l : List String) (d : String → Option String) :
    (l = [] → decide_row_group l d = "NO_EC")
    ∧ (l ≠ [] → (∀ ec ∈ l, d ec = none) → decide_row_group l d = "UNKNOWN")
    ∧ ((∃ ec ∈ l, (d ec).isSome = true) → (∃ ec ∈ l, d ec = none) →
        decide_row_group l d = "MIXED")
    ∧ (∀ g, l ≠ [] → (∀ ec ∈ l, d ec = some g) → decide_row_group l d = g)
    ∧ ((∀ ec ∈ l, (d ec).isSome = true) →
        (∃ e1 ∈ l, ∃ e2 ∈ l, ∃ g1 g2, d e1 = some g1 ∧ d e2 = some g2 ∧ g1 ≠ g2) →
        decide_row_group l d = "MULTIPLE") := by
  refine ⟨?_, ?_, ?_, ?_, ?_⟩
  · intro h; rw [h]; exact decide_row_group_nil d
  · exact decide_row_group_unknown l d
  · exact decide_row_group_mixed l d
  · intro g hne hall; exact decide_row_group_same l d g hne hall
  · exact decide_row_group_multiple l d

/-- Witness for C1: a concrete instance of each of the five outcomes,
obtained from the theorem with every hypothesis discharged. -/
theorem c1_witness :
    decide_row_group [] (fun _ => some "O_MT") = "NO_EC"
    ∧ decide_row_group ["9.9.9.9"] (fun _ => none) = "UNKNOWN"
    ∧ decide_row_group ["2.1.1.1", "9.9.9.9"]
        (fun s => if s = "2.1.1.1" then some "O_MT" else none) = "MIXED"
    ∧ decide_row_group ["2.1.1.1"] (fun _ => some "O_MT") = "O_MT"
    ∧ decide_row_group ["2.1.1.1", "2.1.1.63"]
        (fun s => if s = "2.1.1.1" then some "N_MT" else some "C_MT") = "MULTIPLE" := by
  refine ⟨(c1_resolver_five_way_partition [] _).1 rfl,
    (c1_resolver_five_way_partition ["9.9.9.9"] _).2.1 (by decide) (by decide),
    (c1_resolver_five_way_partition ["2.1.1.1", "9.9.9.9"] _).2.2.1 ?_ ?_,
    ((c1_resolver_five_way_partition ["2.1.1.1"] _).2.2.2.1 "O_MT" (by decide) (by decide)),
    (c1_resolver_five_way_partition ["2.1.1.1", "2.1.1.63"] _).2.2.2.2 (by decide) ?_⟩
  · exact ⟨"2.1.1.1", by decide, by decide⟩
  · exact ⟨"9.9.9.9", by decide, by decide⟩
  · exact ⟨"2.1.1.1", by decide, "2.1.1.63", by decide, "N_MT", "C_MT", by decide, by decide, by decide⟩

/-- C2 counterexample: the claim's second and third example outputs are
wrong on the code.  The pattern `\bc-methyltransferase\b` requires a
hyphen right after the `c`, so "C11-methyltransferase" does not yield
C_MT, and `\bco-methyltransferase\b` requires a hyphen right after the
`co`, so "CoA-methyltransferase" does not yield OTHER. -/
theorem c2_counterexample :
    classify "Precorrin-4 C11-methyltransferase" "OK" ≠ "C_MT"
    ∧ classify "Acetate CoA-methyltransferase" "OK" ≠ "OTHER" := by decide

/-- C2 amended: on the spec's three guard examples the classifier
returns UNCLEAR for all three names: none of them is misrouted through
the "Co-" substring, and none of the specific atom rules (nor the Co-MT
guard itself) fires, because each would need a hyphen directly after
the atom letter. -/
theorem c2_amended_guard_examples :
    classify "Cobalt-precorrin-6Y C5-methyltransferase" "OK" = "UNCLEAR"
    ∧ classify "Precorrin-4 C11-methyltransferase" "OK" = "UNCLEAR"
    ∧ classify "Acetate CoA-methyltransferase" "OK" = "UNCLEAR" := by decide

/-- C5: for every name string, classify with status TRANSFERRED returns
TRANSFERRED and classify with status DELETED returns DELETED, whatever
the text content. -/
theorem c5_status_short_circuit (name : String) :
    classify name "TRANSFERRED" = "TRANSFERRED"
    ∧ classify name "DELETED" = "DELETED" := by
  constructor
  · rfl
  · rfl

/-- C7: the Group Resolver's outcome depends only on the set of
distinct ECs in the list: two lists with the same members (whatever
order and multiplicities) resolve to the same label, in both
implementations of the resolver. -/
theorem c7_resolver_set_semantics (d : String → Option String) (l1 l2 : List String)
    (h : ∀ x : String, x ∈ l1 ↔ x ∈ l2) :
    decide_row_group l1 d = decide_row_group l2 d
    ∧ choose_group_for_ecs l1 d = choose_group_for_ecs l2 d := by
  suffices hd : decide_row_group l1 d = decide_row_group l2 d by
    exact ⟨hd, by rw [choose_eq_decide, choose_eq_decide, hd]⟩
  by_cases h1 : l1 = []
  · have h2 : l2 = [] := by
      cases hl2 : l2 with
      | nil => rfl
      | cons b t =>
        have hb : b ∈ l1 := (h b).mpr (by rw [hl2]; exact List.mem_cons_self b t)
        rw [h1] at hb
        cases hb
    rw [h1, h2]
  · have h2 : l2 ≠ [] := by
      intro hl2
      rcases List.exists_mem_of_ne_nil l1 h1 with ⟨a, ha⟩
      have := (h a).mp ha
      rw [hl2] at this
      cases this
    by_cases hu : ∃ x ∈ l1, d x = none
    · have hu2 : ∃ x ∈ l2, d x = none := by
        rcases hu with ⟨x, hx, hdx⟩
        exact ⟨x, (h x).mp hx, hdx⟩
      by_cases hs : ∃ x ∈ l1, (d x).isSome = true
      · have hs2 : ∃ x ∈ l2, (d x).isSome = true := by
          rcases hs with ⟨x, hx, hdx⟩
          exact ⟨x, (h x).mp hx, hdx⟩
        rw [decide_row_group_mixed l1 d hs hu, decide_row_group_mixed l2 d hs2 hu2]
      · have hall1 : ∀ x ∈ l1, d x = none := by
          intro x hx
          cases hdx : d x with
          | none => rfl
          | some g => exact absurd ⟨x, hx, by simp [hdx]⟩ hs
        have hall2 : ∀ x ∈ l2, d x = none := fun x hx => hall1 x ((h x).mpr hx)
        rw [decide_row_group_unknown l1 d h1 hall1, decide_row_group_unknown l2 d h2 hall2]
    · have hall1 : ∀ x ∈ l1, (d x).isSome = true := by
        intro x hx
        cases hdx : d x with
        | none => exact absurd ⟨x, hx, hdx⟩ hu
        | some g => rfl
      have hall2 : ∀ x ∈ l2, (d x).isSome = true := fun x hx => hall1 x ((h x).mpr hx)
      rcases List.exists_mem_of_ne_nil l1 h1 with ⟨a, ha⟩
      cases hda : d a with
      | none => exact absurd ⟨a, ha, hda⟩ hu
      | some g =>
        by_cases hsame : ∀ x ∈ l1, d x = some g
        · have hsame2 : ∀ x ∈ l2, d x = some g := fun x hx => hsame x ((h x).mpr hx)
          rw [decide_row_group_same l1 d g h1 hsame, decide_row_group_same l2 d g h2 hsame2]
        · push_neg at hsame
          rcases hsame with ⟨b, hb, hdb⟩
          cases hdbv : d b with
          | none => exact absurd ⟨b, hb, hdbv⟩ hu
          | some g2 =>
            have hgg : g ≠ g2 := by
              intro hgg
              exact hdb (by rw [hdbv, hgg])
            have htwo1 : ∃ e1 ∈ l1, ∃ e2 ∈ l1, ∃ g1 g2, d e1 = some g1 ∧ d e2 = some g2 ∧ g1 ≠ g2 :=
              ⟨a, ha, b, hb, g, g2, hda, hdbv, hgg⟩
            have htwo2 : ∃ e1 ∈ l2, ∃ e2 ∈ l2, ∃ g1 g2, d e1 = some g1 ∧ d e2 = some g2 ∧ g1 ≠ g2 :=
              ⟨a, (h a).mp ha, b, (h b).mp hb, g, g2, hda, hdbv, hgg⟩
            rw [decide_row_group_multiple l1 d hall1 htwo1,
              decide_row_group_multiple l2 d hall2 htwo2]

/-- Witness for C7: the spec's duplicate-EC instance, with the
membership hypothesis discharged at concrete lists. -/
theorem c7_witness :
    decide_row_group ["2.1.1.1", "2.1.1.1"]
        (fun s => if s = "2.1.1.1" then some "O_MT" else none)
      = decide_row_group ["2.1.1.1"]
        (fun s => if s = "2.1.1.1" then some "O_MT" else none)
    ∧ choose_group_for_ecs ["2.1.1.1", "2.1.1.1"]
        (fun s => if s = "2.1.1.1" then some "O_MT" else none)
      = choose_group_for_ecs ["2.1.1.1"]
        (fun s => if s = "2.1.1.1" then some "O_MT" else none) :=
  c7_resolver_set_semantics (fun s => if s = "2.1.1.1" then some "O_MT" else none)
    ["2.1.1.1", "2.1.1.1"] ["2.1.1.1"] (by intro x; simp)

/-- C9: the classifier maps the S-adenosylmethionine-dependent
methyltransferase name to UNCLEAR (in particular to UNCLEAR or OTHER,
and never to S_MT). -/
theorem c9_s_adenosyl_guard :
    (classify "S-adenosylmethionine-dependent methyltransferase" "OK" = "UNCLEAR"
      ∨ classify "S-adenosylmethionine-dependent methyltransferase" "OK" = "OTHER")
    ∧ classify "S-adenosylmethionine-dependent methyltransferase" "OK" ≠ "S_MT" := by decide

/-- C10: the two implementations of the Group Resolver are
extensionally equal: for every EC list and every dictionary they return
the same label. -/
theorem c10_resolvers_equivalent (ecs : List String) (d : String → Option String) :
    choose_group_for_ecs ecs d = decide_row_group ecs d := rfl

/-! Helper lemmas for the first-wins invariant of the parsers. -/

lemma lookupStr_append_of_some (d e : List (String × String)) (k : String) (v : String)
    (h : lookupStr d k = some v) : lookupStr (d ++ e) k = some v := by
  induction d with
  | nil => simp [lookupStr] at h
  | cons p t ih =>
    obtain ⟨a, b⟩ := p
    by_cases hk : k = a
    · simp [lookupStr, hk] at h ⊢
      exact h
    · simp [lookupStr, hk] at h ⊢
      exact ih h

lemma insertIfAbsent_preserves (d : List (String × String)) (k v ec g : String)
    (h : lookupStr d ec = some g) : lookupStr (insertIfAbsent d k v) ec = some g := by
  unfold insertIfAbsent
  cases hl : lookupStr d k with
  | some w => exact h
  | none => exact lookupStr_append_of_some d [(k, v)] ec g h

lemma stepA_dict_cases (st : Option String × List (String × String)) (raw : String) :
    (stepA st raw).2 = st.2 ∨ ∃ k v, (stepA st raw).2 = insertIfAbsent st.2 k v := by
  simp only [stepA]
  split
  · exact Or.inl rfl
  split
  · exact Or.inl rfl
  split
  · exact Or.inl rfl
  split
  · exact Or.inl rfl
  split
  · exact Or.inr ⟨_, _, rfl⟩
  · exact Or.inl rfl

lemma stepB_dict_cases (st : Option String × List (String × String)) (raw : String) :
    (stepB st raw).2 = st.2 ∨ ∃ k v, (stepB st raw).2 = insertIfAbsent st.2 k v := by
  simp only [stepB]
  split
  · exact Or.inl rfl
  split
  · exact Or.inl rfl
  split
  · exact Or.inl rfl
  split
  · exact Or.inl rfl
  split
  · exact Or.inr ⟨_, _, rfl⟩
  · exact Or.inl rfl

lemma foldl_stepA_preserves (lines : List String) (st : Option String × List (String × String))
    (ec g : String) (h : lookupStr st.2 ec = some g) :
    lookupStr (lines.foldl stepA st).2 ec = some g := by
  induction lines generalizing st with
  | nil => exact h
  | cons a t ih =>
    apply ih
    rcases stepA_dict_cases st a with hc | ⟨k, v, hc⟩
    · rw [hc]; exact h
    · rw [hc]; exact insertIfAbsent_preserves st.2 k v ec g h

lemma foldl_stepB_preserves (lines : List String) (st : Option String × List (String × String))
    (ec g : String) (h : lookupStr st.2 ec = some g) :
    lookupStr (lines.foldl stepB st).2 ec = some g := by
  induction lines generalizing st with
  | nil => exact h
  | cons a t ih =>
    apply ih
    rcases stepB_dict_cases st a with hc | ⟨k, v, hc⟩
    · rw [hc]; exact h
    · rw [hc]; exact insertIfAbsent_preserves st.2 k v ec g h

/-- C6: in both sectioned-reference parsers the first assignment wins:
once a prefix of the file maps an EC to a group, processing any further
lines (in particular later occurrences of the same EC under other
section headers) never overwrites that entry. -/
theorem c6_first_wins (l1 l2 : List String) (ec g : String) :
    (lookupStr (parse_mt_grouped l1) ec = some g →
      lookupStr (parse_mt_grouped (l1 ++ l2)) ec = some g)
    ∧ (lookupStr (parse_grouped_sectioned l1) ec = some g →
      lookupStr (parse_grouped_sectioned (l1 ++ l2)) ec = some g) := by
  constructor
  · intro h
    unfold parse_mt_grouped at h ⊢
    rw [List.foldl_append]
    exact foldl_stepA_preserves l2 _ ec g h
  · intro h
    unfold parse_grouped_sectioned at h ⊢
    rw [List.foldl_append]
    exact foldl_stepB_preserves l2 _ ec g h

/-- Witness for C6: a file whose O_MT section maps 2.1.1.1 first and
whose N_MT section repeats the same EC; the dictionary keeps O_MT. -/
theorem c6_witness :
    lookupStr (parse_mt_grouped
      (["# O_MT (1)", "ec\tname\tstatus", "2.1.1.1\tfoo\tOK"]
        ++ ["# N_MT (1)", "ec\tname\tstatus", "2.1.1.1\tbar\tOK"])) "2.1.1.1" = some "O_MT"
    ∧ lookupStr (parse_grouped_sectioned
      (["# O_MT (1)", "ec\tname\tstatus", "2.1.1.1\tfoo\tOK"]
        ++ ["# N_MT (1)", "ec\tname\tstatus", "2.1.1.1\tbar\tOK"])) "2.1.1.1" = some "O_MT" :=
  ⟨(c6_first_wins ["# O_MT (1)", "ec\tname\tstatus", "2.1.1.1\tfoo\tOK"]
      ["# N_MT (1)", "ec\tname\tstatus", "2.1.1.1\tbar\tOK"] "2.1.1.1" "O_MT").1 (by decide),
    (c6_first_wins ["# O_MT (1)", "ec\tname\tstatus", "2.1.1.1\tfoo\tOK"]
      ["# N_MT (1)", "ec\tname\tstatus", "2.1.1.1\tbar\tOK"] "2.1.1.1" "O_MT").2 (by decide)⟩

/-- C8: when the reference parse yields an empty dictionary, both mains
stop with the fatal RuntimeError before resolving any row: the pipeline
value is the error message and no group labels are produced. -/
theorem c8_empty_dict_fatal (groupedLines cells cells2 : List String)
    (h : parse_mt_grouped groupedLines = []) :
    assign_run groupedLines cells
      = Except.error "Parsed 0 EC->group mappings from MT_grouped.tsv."
    ∧ split_run [] cells2
      = Except.error "Loaded 0 EC->group mappings from MT_grouped.tsv." := by
  constructor
  · simp [assign_run, h]
  · rfl

/-- Witness for C8: a reference file with no section headers parses to
zero mappings and both pipelines stop with the fatal error. -/
theorem c8_witness :
    assign_run ["2.1.1.1\tfoo\tOK"] ["2.1.1.1"]
      = Except.error "Parsed 0 EC->group mappings from MT_grouped.tsv."
    ∧ split_run [] ["2.1.1.1"]
      = Except.error "Loaded 0 EC->group mappings from MT_grouped.tsv." :=
  c8_empty_dict_fatal ["2.1.1.1\tfoo\tOK"] ["2.1.1.1"] ["2.1.1.1"] (by decide)

/-- C4 counterexample: in MT_split_by_ec.py a missing designated EC
column does NOT abort the run.  With neither the EC column nor the
fallback catalytic-activity column present, the EC source silently
becomes one empty string per row — every row is then treated as having
no ECs — and with only the fallback column present that column is used
silently. -/
theorem c4_counterexample :
    mtsplit_ec_source ["Entry"] (fun _ => ["P1", "P2"]) 2 "EC number" "Catalytic activity"
      = ["", ""]
    ∧ (["", ""].map extract_ec_list) = [[], []]
    ∧ mtsplit_ec_source ["Catalytic activity"] (fun _ => ["some text"]) 1
        "EC number" "Catalytic activity" = ["some text"] := by decide

/-- C4 amended: split_mt2_by_group.py aborts on a missing designated EC
column with an error naming the available columns, but MT_split_by_ec.py
does not: it falls back to the catalytic-activity column and, when that
is also absent, silently uses an empty EC source for every row. -/
theorem c4_missing_column_fatal_vs_fallback (cols : List String) (ecCol catCol : String)
    (colv : String → List String) (n : Nat) (h : cols.contains ecCol = false) :
    mt2_require_ec_col cols ecCol
      = Except.error ("Column " ++ ecCol ++ " not found. Available columns: "
          ++ String.intercalate ", " cols)
    ∧ (cols.contains catCol = false →
        mtsplit_ec_source cols colv n ecCol catCol = List.replicate n "") := by
  have h' : ecCol ∉ cols := by simpa using h
  constructor
  · simp [mt2_require_ec_col, h']
  · intro h2
    have h2' : catCol ∉ cols := by simpa using h2
    simp [mtsplit_ec_source, h', h2']

/-! Helper lemmas for EC extraction (claim C3). -/

lemma takeWhile_append_of_all {p : Char → Bool} (a r : List Char)
    (ha : ∀ x ∈ a, p x = true) (hr : ∀ c, r.head? = some c → p c = false) :
    (a ++ r).takeWhile p = a ∧ (a ++ r).dropWhile p = r := by
  induction a with
  | nil =>
    cases r with
    | nil => exact ⟨rfl, rfl⟩
    | cons c t =>
      have hc : p c = false := hr c rfl
      simp [List.takeWhile_cons, List.dropWhile_cons, hc]
  | cons x xs ih =>
    have hx : p x = true := ha x (List.mem_cons_self x xs)
    have ih' := ih (fun y hy => ha y (List.mem_cons_of_mem x hy))
    simp [List.takeWhile_cons, List.dropWhile_cons, hx, ih'.1, ih'.2]

lemma spanDigits_append_dot (a r : List Char) (ha : ∀ x ∈ a, x.isDigit = true) :
    spanDigits (a ++ '.' :: r) = (a, '.' :: r) := by
  have h := takeWhile_append_of_all (p := Char.isDigit) a ('.' :: r) ha
    (fun c hc => by
      have h0 : '.' = c := by simpa using hc
      rw [← h0]; decide)
  unfold spanDigits
  rw [h.1, h.2]

lemma spanDigits_all (a : List Char) (ha : ∀ x ∈ a, x.isDigit = true) :
    spanDigits a = (a, []) := by
  have h := takeWhile_append_of_all (p := Char.isDigit) a [] ha (fun c hc => by cases hc)
  unfold spanDigits
  rw [List.append_nil] at h
  rw [h.1, h.2]

lemma matchEC_numeric (a b c e : List Char)
    (ha : a ≠ []) (hb : b ≠ []) (hc : c ≠ []) (he : e ≠ [])
    (hda : ∀ x ∈ a, x.isDigit = true) (hdb : ∀ x ∈ b, x.isDigit = true)
    (hdc : ∀ x ∈ c, x.isDigit = true) (hde : ∀ x ∈ e, x.isDigit = true) :
    matchEC (a ++ '.' :: (b ++ '.' :: (c ++ '.' :: e)))
      = some (a ++ '.' :: (b ++ '.' :: (c ++ '.' :: e)), []) := by
  obtain ⟨a0, a', rfl⟩ := List.exists_cons_of_ne_nil ha
  obtain ⟨b0, b', rfl⟩ := List.exists_cons_of_ne_nil hb
  obtain ⟨c0, c', rfl⟩ := List.exists_cons_of_ne_nil hc
  obtain ⟨e0, e', rfl⟩ := List.exists_cons_of_ne_nil he
  have he0 : e0.isDigit = true := hde e0 (List.mem_cons_self e0 e')
  unfold matchEC
  rw [spanDigits_append_dot _ _ hda]
  simp only []
  rw [spanDigits_append_dot _ _ hdb]
  simp only []
  rw [spanDigits_append_dot _ _ hdc]
  simp only []
  rw [spanDigits_all _ hde]
  simp [he0, boundaryAfterWord]

lemma findallAux_nil (n : Nat) (prev : Option Char) : findallAux n prev [] = [] := by
  cases n with
  | zero => rfl
  | succ m => rfl

lemma findallAux_cons_found (fuel : Nat) (x : Char) (xs m rest : List Char)
    (hm : matchEC (x :: xs) = some (m, rest)) :
    findallAux (fuel + 1) none (x :: xs)
      = String.mk m :: findallAux fuel (some (m.getLastD x)) rest := by
  conv_lhs => unfold findallAux
  simp [boundaryB, hm]

lemma findall_numeric (a b c e : List Char)
    (ha : a ≠ []) (hb : b ≠ []) (hc : c ≠ []) (he : e ≠ [])
    (hda : ∀ x ∈ a, x.isDigit = true) (hdb : ∀ x ∈ b, x.isDigit = true)
    (hdc : ∀ x ∈ c, x.isDigit = true) (hde : ∀ x ∈ e, x.isDigit = true) :
    findall (String.mk (a ++ '.' :: (b ++ '.' :: (c ++ '.' :: e))))
      = [String.mk (a ++ '.' :: (b ++ '.' :: (c ++ '.' :: e)))] := by
  have hm := matchEC_numeric a b c e ha hb hc he hda hdb hdc hde
  obtain ⟨a0, a', rfl⟩ := List.exists_cons_of_ne_nil ha
  rw [List.cons_append] at hm
  show findallAux
      ((a0 :: (a' ++ '.' :: (b ++ '.' :: (c ++ '.' :: e)))).length + 1) none
      (a0 :: (a' ++ '.' :: (b ++ '.' :: (c ++ '.' :: e))))
    = [String.mk ((a0 :: a') ++ '.' :: (b ++ '.' :: (c ++ '.' :: e)))]
  rw [findallAux_cons_found _ _ _ _ _ hm, findallAux_nil]
  rw [List.cons_append]

/-- C3 counterexample: the claim fails as stated.  The wildcard EC
2.1.1.- is a valid EC by the claim's own definition and here it is
surrounded by empty text (which contains no other EC-pattern match),
yet extraction returns the empty list, not the singleton: the trailing
word boundary of EC_REGEX cannot hold after the non-word character `-`
at the end of the string.  Likewise a numeric EC directly preceded by a
word character (the surrounding text "x", which matches no EC pattern
by itself) is not extracted, because the leading word boundary fails. -/
theorem c3_counterexample :
    (extract_ec_list "2.1.1.-" = [] ∧ extract_ec_list "2.1.1.-" ≠ ["2.1.1.-"])
    ∧ extract_ec_list "x2.1.1.63" = [] := by decide

/-- C3 amended: for every valid EC string whose four components are all
numeric (first three numeric and fourth numeric, excluding the wildcard
`-`), extraction applied to the EC string itself returns the singleton
list containing exactly that EC. -/
theorem c3_numeric_ec_extraction_singleton (a b c e : List Char)
    (ha : a ≠ []) (hb : b ≠ []) (hc : c ≠ []) (he : e ≠ [])
    (hda : ∀ x ∈ a, x.isDigit = true) (hdb : ∀ x ∈ b, x.isDigit = true)
    (hdc : ∀ x ∈ c, x.isDigit = true) (hde : ∀ x ∈ e, x.isDigit = true) :
    extract_ec_list (String.mk (a ++ '.' :: (b ++ '.' :: (c ++ '.' :: e))))
      = [String.mk (a ++ '.' :: (b ++ '.' :: (c ++ '.' :: e)))] := by
  unfold extract_ec_list
  rw [findall_numeric a b c e ha hb hc he hda hdb hdc hde]
  simp [List.dedup_cons_of_not_mem, sortStr, insertStr]

/-- Witness for C3's amended theorem at the concrete EC 2.1.1.63. -/
theorem c3_witness : extract_ec_list "2.1.1.63" = ["2.1.1.63"] :=
  c3_numeric_ec_extraction_singleton ['2'] ['1'] ['1'] ['6', '3']
    (by decide) (by decide) (by decide) (by decide)
    (by decide) (by decide) (by decide) (by decide)

/-- Witness for C4's amended theorem at a concrete table lacking both
columns. -/
theorem c4_witness :
    mt2_require_ec_col ["Entry"] "EC number"
      = Except.error ("Column " ++ "EC number" ++ " not found. Available columns: "
          ++ String.intercalate ", " ["Entry"])
    ∧ (["Entry"].contains "Catalytic activity" = false →
        mtsplit_ec_source ["Entry"] (fun _ => []) 3 "EC number" "Catalytic activity"
          = List.replicate 3 "") :=
  c4_missing_column_fatal_vs_fallback ["Entry"] "EC number" "Catalytic activity"
    (fun _ => []) 3 (by decide)

end MT

